import Mathlib

/-!
Shallow embedding of the CRM-AI-Agent repository (app/agent.py, app/meta_router.py,
app/models.py, app/main.py) and proofs about the specified properties.

Strings are Lean `String`s; character-level work is done on `List Char` via `.data`.
Machine integers do not occur in the modelled code paths (ids are unbounded Python ints,
modelled as `Nat`).
-/

set_option maxRecDepth 100000

namespace CRM

/-! ### app/agent.py : `_sanitize_ascii` -/

/-- The six `str.replace` calls of `_sanitize_ascii` (smart quotes and dashes to ASCII).
Each replaces a single character by a single ASCII character, so the chain of
`.replace` calls is a character map. -/
def replaceSmart (c : Char) : Char :=
  if c = '’' then '\''
  else if c = '‘' then '\''
  else if c = '“' then '"'
  else if c = '”' then '"'
  else if c = '—' then '-'
  else if c = '–' then '-'
  else c

/-- `text.encode("ascii", errors="ignore")` keeps exactly the code points below 128. -/
def isAsciiChar (c : Char) : Bool := c.toNat < 128

/-- Python's `\s` / `str.isspace` restricted to the ASCII range (the only characters
that can remain after the ASCII filter): space, `\t`, `\n`, `\v`, `\f`, `\r` and the
information-separator characters `\x1c`..`\x1f`. -/
def isPyWs (c : Char) : Bool :=
  c = ' ' || c = '\t' || c = '\n' || c = '\x0b' || c = '\x0c' || c = '\r' ||
  c = '\x1c' || c = '\x1d' || c = '\x1e' || c = '\x1f'

/-- `re.sub(r"\s+", " ", text)`: every maximal run of whitespace becomes one space.
The flag records whether we are inside a whitespace run that has already emitted
its single space. -/
def collapseAux : Bool → List Char → List Char
  | _, [] => []
  | inRun, c :: t =>
    if isPyWs c then
      if inRun then collapseAux true t
      else ' ' :: collapseAux true t
    else c :: collapseAux false t

def collapseWs (l : List Char) : List Char := collapseAux false l

/-- Remove the maximal trailing whitespace run (the right half of `str.strip()`). -/
def dropTrailingWs : List Char → List Char
  | [] => []
  | c :: t =>
    let t' := dropTrailingWs t
    if t'.isEmpty && isPyWs c then [] else c :: t'

/-- `text.strip()`: drop leading and trailing whitespace. -/
def stripWs (l : List Char) : List Char :=
  dropTrailingWs (l.dropWhile isPyWs)

/-- The character pipeline of `_sanitize_ascii`: smart-punctuation replacement,
ASCII filter, whitespace collapse, strip. -/
def sanitizeList (l : List Char) : List Char :=
  stripWs (collapseWs ((l.map replaceSmart).filter isAsciiChar))

/-- `app/agent.py::_sanitize_ascii`. The `if not text: return ""` guard fires
exactly on the empty string (its only falsy value of type `str`). -/
def sanitize_ascii (s : String) : String :=
  if s = "" then "" else ⟨sanitizeList s.data⟩

/-! ### app/agent.py : `run_agent` -/

/-- Python truthiness of an `Optional[str]`: `None` and `""` are falsy. -/
def truthyStr : Option String → Bool
  | none => false
  | some s => s ≠ ""

/-- `str.lower()` (the modelled code only matches ASCII keywords). -/
def lowerStr (s : String) : String := ⟨s.data.map Char.toLower⟩

/-- `needle in hay` for strings: some suffix of `hay` starts with `needle`. -/
def containsSub (needle : List Char) : List Char → Bool
  | [] => needle.isEmpty
  | c :: t => needle.isPrefixOf (c :: t) || containsSub needle t

def strContains (hay needle : String) : Bool := containsSub needle.data hay.data

/-- The keyword list of `run_agent`. -/
def agentKeywords : List String :=
  ["price", "cost", "rate", "kitna", "suit", "order", "cod", "delivery"]

/-- The fixed default reply of `run_agent`. -/
def default_reply : String := "Share your city + budget and I'll finalize the order."

/-- The rule-based stage computation of `run_agent`: it runs before any backend
call and is independent of the backend. -/
def ruleStage (message_text : Option String) : String :=
  let lower := lowerStr (message_text.getD "")
  if agentKeywords.any (fun k => strContains lower k) then "qualified" else "new"

/-- Outcome of the OpenAI chat-completions call: `.error ()` is any raised
exception (unreachable host, timeout, auth error, malformed response);
`.ok content` is `resp.choices[0].message.content` (`none` models `None`). -/
abbrev BackendResult := Except Unit (Option String)

/-- `app/agent.py::run_agent`, parametrised over the environment:
`api_key` is `os.getenv("OPENAI_API_KEY")`, `openai_available` is whether the
`openai` import succeeded, `backend` is the result of the completions call.
Returns `(reply, stage)`. -/
def run_agent (api_key : Option String) (openai_available : Bool)
    (backend : BackendResult) (message_text : Option String)
    (_contact_name : Option String) : String × String :=
  let stage := ruleStage message_text
  if !truthyStr api_key || !openai_available then
    (sanitize_ascii default_reply, stage)
  else
    match backend with
    | .error _ => (sanitize_ascii default_reply, stage)
    | .ok content =>
      let reply := match content with
        | some s => if s ≠ "" then s else default_reply
        | none => default_reply
      (sanitize_ascii reply, stage)

/-! ### app/meta_router.py -/

/-- Python values as they can occur inside a webhook payload. Dict keys in the
modelled payloads are strings. -/
inductive Py where
  | none
  | bool (b : Bool)
  | int (n : Int)
  | str (s : String)
  | list (xs : List Py)
  | dict (kvs : List (String × Py))

/-- Python `v == s` for a string literal `s`: true only when `v` is an equal
string (equality between different Python types is `False`). -/
def Py.isStr : Py → String → Bool
  | .str t, s => t == s
  | _, _ => false

/-- First binding of a key in a dict (Python dicts have unique keys; on the
lists we use, the first binding is the binding). -/
def dictLookup (kvs : List (String × Py)) (k : String) : Option Py :=
  (kvs.find? (fun kv => kv.1 = k)).map (·.2)

/-- Python truthiness of a payload value. -/
def truthyPy : Py → Bool
  | .none => false
  | .bool b => b
  | .int n => n != 0
  | .str s => s ≠ ""
  | .list xs => !xs.isEmpty
  | .dict kvs => !kvs.isEmpty

/-- `a or b`. -/
def pyOr (a b : Py) : Py := if truthyPy a then a else b

/-- `v.get(k)`: defined on dicts (missing key gives `None`); on any other value
`.get` does not exist and the attribute access raises. -/
def pyGet (v : Py) (k : String) : Except Unit Py :=
  match v with
  | .dict kvs => .ok ((dictLookup kvs k).getD .none)
  | _ => .error ()

/-- `v[0]`: head of a list (raising on the empty list), first character of a
non-empty string; a dict with string keys raises `KeyError` on the key `0`, and
every other value raises `TypeError`. -/
def pyIndex0 (v : Py) : Except Unit Py :=
  match v with
  | .list (x :: _) => .ok x
  | .str s =>
    match s.data with
    | c :: _ => .ok (.str ⟨[c]⟩)
    | [] => .error ()
  | _ => .error ()

/-- `app/meta_router.py::detect_channel`. `payload.get("object", "")` defaults to
`""`; equality between values of different Python types is `False`. -/
def detect_channel (payload : List (String × Py)) : String :=
  let obj := (dictLookup payload "object").getD (.str "")
  if obj.isStr "whatsapp_business_account" then "whatsapp"
  else if obj.isStr "page" then "messenger"
  else if obj.isStr "instagram" then "instagram"
  else "unknown"

/-- The body of the `try:` block of `extract_routing_key`; `.error ()` is any
raised exception. -/
def extract_routing_body (payload : List (String × Py)) : Except Unit Py :=
  if detect_channel payload = "whatsapp" then do
    let entry ← pyIndex0 (pyOr ((dictLookup payload "entry").getD .none) (.list []))
    let change ← pyIndex0 (pyOr (← pyGet entry "changes") (.list []))
    let value := pyOr (← pyGet change "value") (.dict [])
    let meta := pyOr (← pyGet value "metadata") (.dict [])
    pyGet meta "phone_number_id"
  else do
    let entry ← pyIndex0 (pyOr ((dictLookup payload "entry").getD .none) (.list []))
    pyGet entry "id"

/-- `app/meta_router.py::extract_routing_key`: the `except Exception: return None`
handler turns every raised exception into `None` (`Py.none`). -/
def extract_routing_key (payload : List (String × Py)) : Py :=
  match extract_routing_body payload with
  | .ok v => v
  | .error _ => .none

/-- Modelled from the spec: the indexing step of the spec's total routing-key
function, returning "nothing" instead of raising. -/
def idx0Spec : Py → Option Py
  | .list (x :: _) => some x
  | .str s =>
    (match s.data with
      | c :: _ => some (.str ⟨[c]⟩)
      | [] => Option.none)
  | _ => Option.none

/-- Modelled from the spec: the key-lookup step of the spec's total routing-key
function, returning "nothing" instead of raising. -/
def getSpec : Py → String → Option Py
  | .dict kvs, k => some ((dictLookup kvs k).getD .none)
  | _, _ => Option.none

/-- Modelled from the spec: `routingKey(payload) -> optional string`, a total
function written in the `Option` monad with no exception path, "for whatsapp,
digs into the first entry/first change/value/metadata substructure to extract a
phone-number identifier; for other channels, returns the first entry's id
field. Any structural mismatch (missing keys, empty arrays) yields no routing
key". Used only to compare against `extract_routing_key`. -/
def routingKeySpec (payload : List (String × Py)) : Option Py :=
  if detect_channel payload = "whatsapp" then do
    let entry ← idx0Spec (pyOr ((dictLookup payload "entry").getD .none) (.list []))
    let change ← idx0Spec (pyOr (← getSpec entry "changes") (.list []))
    let value := pyOr (← getSpec change "value") (.dict [])
    let meta := pyOr (← getSpec value "metadata") (.dict [])
    getSpec meta "phone_number_id"
  else do
    let entry ← idx0Spec (pyOr ((dictLookup payload "entry").getD .none) (.list []))
    getSpec entry "id"

/-! ### app/models.py : the rows the simulate handler touches -/

/-- `app/models.py::Contact` (the columns read or written by `simulate`). -/
structure Contact where
  id : Nat
  tenant_id : Nat
  channel : String
  channel_user_id : String
  contact_name : Option String
  phone : Option String
deriving DecidableEq

/-- `app/models.py::Deal` (the columns read or written by `simulate`). -/
structure Deal where
  id : Nat
  tenant_id : Nat
  contact_id : Nat
  stage : String
  status : String
deriving DecidableEq

/-- `app/models.py::Message` (the columns read or written by `simulate`). -/
structure Message where
  id : Nat
  tenant_id : Nat
  contact_id : Nat
  channel : String
  direction : String
  text : String
deriving DecidableEq

/-- The three tables `simulate` touches, each in insertion (= rowid) order. -/
structure DB where
  contacts : List Contact
  deals : List Deal
  messages : List Message
deriving DecidableEq

def DB.empty : DB := ⟨[], [], []⟩

/-- SQLite autoincrement primary key: one more than the largest id in the table. -/
def nextId (ids : List Nat) : Nat := ids.foldr max 0 + 1

def nextContactId (db : DB) : Nat := nextId (db.contacts.map (·.id))
def nextDealId (db : DB) : Nat := nextId (db.deals.map (·.id))
def nextMessageId (db : DB) : Nat := nextId (db.messages.map (·.id))

/-! ### app/main.py : the `simulate` handler -/

/-- `app/main.py::SimulateIn`. -/
structure SimulateIn where
  channel : String
  channel_user_id : String
  text : String
  contact_name : Option String
deriving DecidableEq

/-- The contact query of `simulate`: filter by tenant, channel and
channel_user_id, `.first()` in rowid order. -/
def findContact (contacts : List Contact) (t : Nat) (p : SimulateIn) : Option Contact :=
  contacts.find? fun c =>
    c.tenant_id == t && c.channel == p.channel && c.channel_user_id == p.channel_user_id

/-- Find-or-create of the contact plus the conditional name backfill
(`if payload.contact_name and not contact.contact_name`). Returns the new
database, the list of states committed by this phase, and the resolved contact. -/
def contactPhase (t : Nat) (p : SimulateIn) (db : DB) : DB × List DB × Contact :=
  match findContact db.contacts t p with
  | Option.none =>
    let c : Contact :=
      { id := nextContactId db
        tenant_id := t
        channel := p.channel
        channel_user_id := p.channel_user_id
        contact_name := p.contact_name
        phone := if p.channel = "whatsapp" then some p.channel_user_id else Option.none }
    let db1 : DB := { db with contacts := db.contacts ++ [c] }
    (db1, [db1], c)
  | some c =>
    if truthyStr p.contact_name && !truthyStr c.contact_name then
      let db1 : DB :=
        { db with contacts := db.contacts.map fun x =>
            if x.id = c.id then { x with contact_name := p.contact_name } else x }
      (db1, [db1], { c with contact_name := p.contact_name })
    else (db, [], c)

/-- The deal query's filter: tenant, contact, `status == "open"`. -/
def openDealsFor (deals : List Deal) (t cid : Nat) : List Deal :=
  deals.filter fun d => d.tenant_id == t && d.contact_id == cid && d.status == "open"

/-- `.order_by(desc(Deal.id)).first()`: the row with the greatest id
(the earliest such row if ids were ever duplicated). -/
def firstMaxId (l : List Deal) : Option Deal :=
  l.foldl
    (fun acc d =>
      match acc with
      | Option.none => some d
      | some b => if b.id < d.id then some d else some b)
    Option.none

def findDeal (deals : List Deal) (t cid : Nat) : Option Deal :=
  firstMaxId (openDealsFor deals t cid)

/-- Find-or-create of the open deal. Returns the new database, the states
committed by this phase, and the resolved deal. -/
def dealPhase (t cid : Nat) (db : DB) : DB × List DB × Deal :=
  match findDeal db.deals t cid with
  | some d => (db, [], d)
  | Option.none =>
    let d : Deal :=
      { id := nextDealId db, tenant_id := t, contact_id := cid
        stage := "new", status := "open" }
    let db1 : DB := { db with deals := db.deals ++ [d] }
    (db1, [db1], d)

/-- One `db.add(Message(...)); db.commit()` pair. -/
def appendMessage (db : DB) (t cid : Nat) (channel direction text : String) : DB × Message :=
  let m : Message :=
    { id := nextMessageId db, tenant_id := t, contact_id := cid
      channel := channel, direction := direction, text := text }
  ({ db with messages := db.messages ++ [m] }, m)

/-- The keyword test of `simulate`: `"price" in text_lower or "rate" in text_lower`. -/
def simKeyword (text : String) : Bool :=
  strContains (lowerStr text) "price" || strContains (lowerStr text) "rate"

/-- The keyword-branch reply of `simulate`, verbatim from the source
(it contains U+2019 in "I’ll"). -/
def replyPrice : String := "Share your city + budget and I’ll finalize the order."

/-- The other-branch reply of `simulate`. -/
def replyOther : String := "Thanks! Share your city + budget so I can guide you."

/-- Result of one `simulate` call: the sequence of database states at each
`db.commit()` (in order), and the returned reply and stage. -/
structure SimResult where
  commits : List DB
  reply : String
  stage : String
deriving DecidableEq

/-- The ORM stage assignment `deal.stage = s` followed by commit: the row with
the deal's primary key is updated in place. -/
def stageUpdate (deals : List Deal) (did : Nat) (s : String) : List Deal :=
  deals.map fun x => if x.id = did then { x with stage := s } else x

/-! The steps of `app/main.py::simulate` for a tenant-scoped user
(`user.tenant_id = t`), in source order: find-or-create contact (commit on
create or name backfill), insert inbound message (commit), find-or-create open
deal (commit on create), set the stage from the keyword rule (commit), insert
outbound message (commit). -/

/-- State after the contact find-or-create (lines 362-384). -/
def db1of (t : Nat) (p : SimulateIn) (db : DB) : DB := (contactPhase t p db).1

/-- The resolved contact. -/
def contactOf (t : Nat) (p : SimulateIn) (db : DB) : Contact := (contactPhase t p db).2.2

/-- State after the inbound-message insert (lines 386-395). -/
def db2of (t : Nat) (p : SimulateIn) (db : DB) : DB :=
  (appendMessage (db1of t p db) t (contactOf t p db).id p.channel "in" p.text).1

/-- The inbound message row. -/
def msgInOf (t : Nat) (p : SimulateIn) (db : DB) : Message :=
  (appendMessage (db1of t p db) t (contactOf t p db).id p.channel "in" p.text).2

/-- State after the deal find-or-create (lines 397-415). -/
def db3of (t : Nat) (p : SimulateIn) (db : DB) : DB :=
  (dealPhase t (contactOf t p db).id (db2of t p db)).1

/-- The resolved deal. -/
def dealOf (t : Nat) (p : SimulateIn) (db : DB) : Deal :=
  (dealPhase t (contactOf t p db).id (db2of t p db)).2.2

/-- The reply of lines 417-423. -/
def replyOf (p : SimulateIn) : String :=
  if simKeyword p.text then replyPrice else replyOther

/-- The stage written by lines 417-424: `"qualified"` on a keyword hit, else
`deal.stage or "new"`. -/
def newStageOf (t : Nat) (p : SimulateIn) (db : DB) : String :=
  if simKeyword p.text then "qualified"
  else (if (dealOf t p db).stage = "" then "new" else (dealOf t p db).stage)

/-- State after the stage assignment and commit (lines 419-426). -/
def db4of (t : Nat) (p : SimulateIn) (db : DB) : DB :=
  { db3of t p db with
      deals := stageUpdate (db3of t p db).deals (dealOf t p db).id (newStageOf t p db) }

/-- State after the outbound-message insert (lines 428-437). -/
def db5of (t : Nat) (p : SimulateIn) (db : DB) : DB :=
  (appendMessage (db4of t p db) t (contactOf t p db).id p.channel "out" (replyOf p)).1

/-- The outbound message row. -/
def msgOutOf (t : Nat) (p : SimulateIn) (db : DB) : Message :=
  (appendMessage (db4of t p db) t (contactOf t p db).id p.channel "out" (replyOf p)).2

/-- `app/main.py::simulate`: the commit sequence and the returned payload
(`reply`, `stage`); `deal.stage` at line 439 is the stage written at line 421/424. -/
def simulateRun (t : Nat) (p : SimulateIn) (db : DB) : SimResult :=
  { commits := (contactPhase t p db).2.1 ++ [db2of t p db] ++
      (dealPhase t (contactOf t p db).id (db2of t p db)).2.1 ++
      [db4of t p db, db5of t p db]
    reply := replyOf p
    stage := newStageOf t p db }

/-- The database after a completed `simulate` call. -/
def simulate (t : Nat) (p : SimulateIn) (db : DB) : DB :=
  ((simulateRun t p db).commits).getLastD db

def simulateReply (t : Nat) (p : SimulateIn) (db : DB) : String :=
  (simulateRun t p db).reply

def simulateStage (t : Nat) (p : SimulateIn) (db : DB) : String :=
  (simulateRun t p db).stage

/-- The committed database when the `k`-th `db.commit()` (0-based) raises a
persistence error: exactly the writes of the first `k` commits persist, the
failed transaction and everything after it do not. -/
def simulateFailAt (k : Nat) (t : Nat) (p : SimulateIn) (db : DB) : DB :=
  (((simulateRun t p db).commits).take k).getLastD db

/-- The resolve step of `simulate` (lines 362-415: contact find-or-create with
name backfill, inbound-message insert, open-deal find-or-create). Returns the
database and the resolved contact and deal. -/
def resolve (t : Nat) (p : SimulateIn) (db : DB) : DB × Contact × Deal :=
  (db3of t p db, contactOf t p db, dealOf t p db)

/-- The funnel order of the spec: new < qualified < order < closed. -/
def funnelRank : String → Nat
  | "new" => 0
  | "qualified" => 1
  | "order" => 2
  | "closed" => 3
  | _ => 0

/-- The at-most-one-open-deal invariant per (tenant_id, contact_id). -/
def AtMostOneOpen (db : DB) : Prop :=
  ∀ t cid, (openDealsFor db.deals t cid).length ≤ 1

/-- Primary keys are unique (the column constraint of `models.py`). -/
def WFids (db : DB) : Prop :=
  (db.contacts.map (·.id)).Nodup ∧ (db.deals.map (·.id)).Nodup

/-- The rows of one tenant. -/
def tenantView (db : DB) (t : Nat) : DB :=
  { contacts := db.contacts.filter (·.tenant_id == t)
    deals := db.deals.filter (·.tenant_id == t)
    messages := db.messages.filter (·.tenant_id == t) }

/-! ### Shape predicates for sanitized text -/

/-- No character is followed by another whitespace character when it is itself
whitespace. -/
def noDoubleWs : List Char → Bool
  | a :: b :: t => (!(isPyWs a && isPyWs b)) && noDoubleWs (b :: t)
  | _ => true

def headNotWs : List Char → Bool
  | [] => true
  | c :: _ => !isPyWs c

def lastNotWs : List Char → Bool
  | [] => true
  | [c] => !isPyWs c
  | _ :: c :: t => lastNotWs (c :: t)

/-! ### Lemmas about the sanitizer -/

theorem collapseAux_nil (b : Bool) : collapseAux b [] = [] := rfl

theorem collapseAux_cons_ws_run {c : Char} {t : List Char} (hc : isPyWs c = true) :
    collapseAux true (c :: t) = collapseAux true t := by
  simp [collapseAux, hc]

theorem collapseAux_cons_ws_new {c : Char} {t : List Char} (hc : isPyWs c = true) :
    collapseAux false (c :: t) = ' ' :: collapseAux true t := by
  simp [collapseAux, hc]

theorem collapseAux_cons_not_ws {c : Char} {t : List Char} (b : Bool)
    (hc : isPyWs c = false) :
    collapseAux b (c :: t) = c :: collapseAux false t := by
  simp [collapseAux, hc]

theorem dropTrailingWs_cons (c : Char) (t : List Char) :
    dropTrailingWs (c :: t) =
      if (dropTrailingWs t).isEmpty && isPyWs c then [] else c :: dropTrailingWs t := rfl

theorem noDoubleWs_tail {a : Char} {t : List Char} (h : noDoubleWs (a :: t) = true) :
    noDoubleWs t = true := by
  cases t with
  | nil => rfl
  | cons b t' => simp only [noDoubleWs, Bool.and_eq_true] at h; exact h.2

theorem noDoubleWs_head_pair {c b : Char} {t : List Char}
    (h : noDoubleWs (c :: b :: t) = true) : isPyWs c = false ∨ isPyWs b = false := by
  simp only [noDoubleWs, Bool.and_eq_true, Bool.not_eq_true'] at h
  cases hcw : isPyWs c with
  | false => exact Or.inl rfl
  | true =>
    cases hbw : isPyWs b with
    | false => exact Or.inr rfl
    | true => rw [hcw, hbw] at h; simp at h

theorem noDoubleWs_cons_of_head {a : Char} {l : List Char}
    (h : isPyWs a = false ∨ headNotWs l = true) (hl : noDoubleWs l = true) :
    noDoubleWs (a :: l) = true := by
  cases l with
  | nil => rfl
  | cons b t =>
    simp only [noDoubleWs, Bool.and_eq_true, Bool.not_eq_true']
    refine ⟨?_, hl⟩
    rcases h with h | h
    · simp [h]
    · simp only [headNotWs, Bool.not_eq_true'] at h
      simp [h]

theorem mem_collapseAux {x : Char} :
    ∀ (b : Bool) (l : List Char), x ∈ collapseAux b l →
      x = ' ' ∨ (x ∈ l ∧ isPyWs x = false)
  | _, [], h => by simp [collapseAux] at h
  | b, c :: t, h => by
    cases hc : isPyWs c with
    | true =>
      cases b with
      | true =>
        rw [collapseAux_cons_ws_run hc] at h
        rcases mem_collapseAux true t h with h1 | ⟨h2, h3⟩
        · exact Or.inl h1
        · exact Or.inr ⟨List.mem_cons_of_mem _ h2, h3⟩
      | false =>
        rw [collapseAux_cons_ws_new hc] at h
        rcases List.mem_cons.mp h with h | h
        · exact Or.inl h
        · rcases mem_collapseAux true t h with h1 | ⟨h2, h3⟩
          · exact Or.inl h1
          · exact Or.inr ⟨List.mem_cons_of_mem _ h2, h3⟩
    | false =>
      rw [collapseAux_cons_not_ws b hc] at h
      rcases List.mem_cons.mp h with h | h
      · subst h; exact Or.inr ⟨List.mem_cons_self _ _, hc⟩
      · rcases mem_collapseAux false t h with h1 | ⟨h2, h3⟩
        · exact Or.inl h1
        · exact Or.inr ⟨List.mem_cons_of_mem _ h2, h3⟩

theorem headNotWs_collapseAux_true :
    ∀ l : List Char, headNotWs (collapseAux true l) = true
  | [] => rfl
  | c :: t => by
    cases hc : isPyWs c with
    | true => rw [collapseAux_cons_ws_run hc]; exact headNotWs_collapseAux_true t
    | false => rw [collapseAux_cons_not_ws true hc]; simp [headNotWs, hc]

theorem noDoubleWs_collapseAux :
    ∀ (l : List Char) (b : Bool), noDoubleWs (collapseAux b l) = true
  | [], _ => rfl
  | c :: t, b => by
    cases hc : isPyWs c with
    | true =>
      cases b with
      | true => rw [collapseAux_cons_ws_run hc]; exact noDoubleWs_collapseAux t true
      | false =>
        rw [collapseAux_cons_ws_new hc]
        exact noDoubleWs_cons_of_head (Or.inr (headNotWs_collapseAux_true t))
          (noDoubleWs_collapseAux t true)
    | false =>
      rw [collapseAux_cons_not_ws b hc]
      exact noDoubleWs_cons_of_head (Or.inl hc) (noDoubleWs_collapseAux t false)

theorem collapseAux_eq_self :
    ∀ l : List Char, (∀ x ∈ l, isPyWs x = true → x = ' ') → noDoubleWs l = true →
      collapseAux false l = l ∧ (headNotWs l = true → collapseAux true l = l)
  | [], _, _ => ⟨rfl, fun _ => rfl⟩
  | c :: t, hws, hnd => by
    have ihyp := collapseAux_eq_self t
      (fun x hx h => hws x (List.mem_cons_of_mem _ hx) h) (noDoubleWs_tail hnd)
    cases hc : isPyWs c with
    | true =>
      have hcsp : c = ' ' := hws c (List.mem_cons_self _ _) hc
      have htail : collapseAux true t = t := by
        cases t with
        | nil => rfl
        | cons b t' =>
          apply ihyp.2
          rcases noDoubleWs_head_pair hnd with h | h
          · rw [hc] at h; exact absurd h (by simp)
          · simp [headNotWs, h]
      refine ⟨?_, ?_⟩
      · rw [collapseAux_cons_ws_new hc, htail, hcsp]
      · intro hh
        rw [headNotWs, hc] at hh
        exact absurd hh (by simp)
    | false =>
      refine ⟨?_, fun _ => ?_⟩ <;>
        rw [collapseAux_cons_not_ws _ hc, ihyp.1]

theorem headNotWs_dropWhile (l : List Char) :
    headNotWs (l.dropWhile isPyWs) = true := by
  induction l with
  | nil => rfl
  | cons c t ih =>
    cases hc : isPyWs c with
    | true => simpa [List.dropWhile_cons, hc] using ih
    | false => simp [List.dropWhile_cons, hc, headNotWs]

theorem noDoubleWs_dropWhile {l : List Char} (h : noDoubleWs l = true) :
    noDoubleWs (l.dropWhile isPyWs) = true := by
  induction l with
  | nil => exact h
  | cons c t ih =>
    cases hc : isPyWs c with
    | true =>
      simp only [List.dropWhile_cons, hc, if_true]
      exact ih (noDoubleWs_tail h)
    | false => simpa [List.dropWhile_cons, hc] using h

theorem mem_dropWhile {x : Char} {l : List Char} (h : x ∈ l.dropWhile isPyWs) :
    x ∈ l := by
  induction l with
  | nil => simpa using h
  | cons c t ih =>
    cases hc : isPyWs c with
    | true =>
      simp only [List.dropWhile_cons, hc, if_true] at h
      exact List.mem_cons_of_mem _ (ih h)
    | false => simpa [List.dropWhile_cons, hc] using h

theorem dropWhile_eq_self {l : List Char} (h : headNotWs l = true) :
    l.dropWhile isPyWs = l := by
  cases l with
  | nil => rfl
  | cons c t =>
    simp only [headNotWs, Bool.not_eq_true'] at h
    simp [List.dropWhile_cons, h]

theorem mem_dropTrailingWs {x : Char} :
    ∀ l : List Char, x ∈ dropTrailingWs l → x ∈ l
  | [], h => by simpa [dropTrailingWs] using h
  | c :: t, h => by
    rw [dropTrailingWs_cons] at h
    split at h
    · simp at h
    · rcases List.mem_cons.mp h with h | h
      · exact h ▸ List.mem_cons_self _ _
      · exact List.mem_cons_of_mem _ (mem_dropTrailingWs t h)

theorem dropTrailingWs_cons_cases (c : Char) (t : List Char) :
    dropTrailingWs (c :: t) = [] ∨ dropTrailingWs (c :: t) = c :: dropTrailingWs t := by
  rw [dropTrailingWs_cons]
  split
  · exact Or.inl rfl
  · exact Or.inr rfl

theorem headNotWs_dropTrailingWs {l : List Char} (h : headNotWs l = true) :
    headNotWs (dropTrailingWs l) = true := by
  cases l with
  | nil => rfl
  | cons c t =>
    rcases dropTrailingWs_cons_cases c t with h1 | h1 <;> rw [h1]
    · rfl
    · simpa [headNotWs] using h

theorem lastNotWs_dropTrailingWs : ∀ l : List Char, lastNotWs (dropTrailingWs l) = true
  | [] => rfl
  | c :: t => by
    rw [dropTrailingWs_cons]
    split
    · rfl
    · rename_i hk
      cases he : (dropTrailingWs t).isEmpty with
      | true =>
        have ht : dropTrailingWs t = [] := List.isEmpty_iff.mp he
        have hc : isPyWs c = false := by
          cases hcv : isPyWs c with
          | false => rfl
          | true => exact absurd (by simp [he, hcv]) hk
        rw [ht]
        simp [lastNotWs, hc]
      | false =>
        have ht : dropTrailingWs t ≠ [] := by
          intro hcontra; rw [hcontra] at he; simp at he
        obtain ⟨b, r, hbr⟩ := List.exists_cons_of_ne_nil ht
        rw [hbr]
        have hrec := lastNotWs_dropTrailingWs t
        rw [hbr] at hrec
        simpa [lastNotWs] using hrec

theorem noDoubleWs_dropTrailingWs :
    ∀ l : List Char, noDoubleWs l = true → noDoubleWs (dropTrailingWs l) = true
  | [], h => h
  | c :: t, h => by
    rcases dropTrailingWs_cons_cases c t with h1 | h1 <;> rw [h1]
    · rfl
    · have htail := noDoubleWs_dropTrailingWs t (noDoubleWs_tail h)
      cases t with
      | nil => rfl
      | cons b t' =>
        rcases dropTrailingWs_cons_cases b t' with h2 | h2 <;> rw [h2]
        · rfl
        · apply noDoubleWs_cons_of_head _ (h2 ▸ htail)
          rcases noDoubleWs_head_pair h with hcw | hbw
          · exact Or.inl hcw
          · exact Or.inr (by simp [headNotWs, hbw])

theorem dropTrailingWs_eq_self : ∀ l : List Char, lastNotWs l = true → dropTrailingWs l = l
  | [], _ => rfl
  | c :: t, h => by
    cases t with
    | nil =>
      have hc : isPyWs c = false := by simpa [lastNotWs] using h
      rw [dropTrailingWs_cons]
      simp [hc, dropTrailingWs]
    | cons b t' =>
      have ht : dropTrailingWs (b :: t') = b :: t' := by
        apply dropTrailingWs_eq_self
        simpa [lastNotWs] using h
      rw [dropTrailingWs_cons, ht]
      simp

theorem mem_stripWs {x : Char} {l : List Char} (h : x ∈ stripWs l) : x ∈ l :=
  mem_dropWhile (mem_dropTrailingWs _ h)

theorem mem_sanitizeList {x : Char} {l : List Char} (h : x ∈ sanitizeList l) :
    x = ' ' ∨ (x ∈ (l.map replaceSmart).filter isAsciiChar ∧ isPyWs x = false) :=
  mem_collapseAux false _ (mem_stripWs h)

theorem sanitizeList_ascii {x : Char} {l : List Char} (h : x ∈ sanitizeList l) :
    isAsciiChar x = true := by
  rcases mem_sanitizeList h with h1 | ⟨h2, _⟩
  · subst h1; rfl
  · exact List.of_mem_filter h2

theorem sanitizeList_wsOnlySpace {x : Char} {l : List Char} (h : x ∈ sanitizeList l)
    (hws : isPyWs x = true) : x = ' ' := by
  rcases mem_sanitizeList h with h1 | ⟨_, h2⟩
  · exact h1
  · rw [hws] at h2; exact absurd h2 (by simp)

theorem sanitizeList_headNotWs (l : List Char) : headNotWs (sanitizeList l) = true :=
  headNotWs_dropTrailingWs (headNotWs_dropWhile _)

theorem sanitizeList_lastNotWs (l : List Char) : lastNotWs (sanitizeList l) = true :=
  lastNotWs_dropTrailingWs _

theorem sanitizeList_noDoubleWs (l : List Char) : noDoubleWs (sanitizeList l) = true :=
  noDoubleWs_dropTrailingWs _ (noDoubleWs_dropWhile (noDoubleWs_collapseAux _ false))

theorem replaceSmart_eq_self_of_ascii {c : Char} (h : isAsciiChar c = true) :
    replaceSmart c = c := by
  have hn : c.toNat < 128 := by simpa [isAsciiChar] using h
  unfold replaceSmart
  split_ifs with h1 h2 h3 h4 h5 h6
  · exact absurd (h1 ▸ hn) (by decide)
  · exact absurd (h2 ▸ hn) (by decide)
  · exact absurd (h3 ▸ hn) (by decide)
  · exact absurd (h4 ▸ hn) (by decide)
  · exact absurd (h5 ▸ hn) (by decide)
  · exact absurd (h6 ▸ hn) (by decide)
  · rfl

/-- On an already-canonical character list (the shape `sanitizeList` produces),
the whole pipeline is the identity. -/
theorem sanitizeList_eq_self {l : List Char}
    (hascii : ∀ x ∈ l, isAsciiChar x = true)
    (hws : ∀ x ∈ l, isPyWs x = true → x = ' ')
    (hnd : noDoubleWs l = true)
    (hhead : headNotWs l = true)
    (hlast : lastNotWs l = true) :
    sanitizeList l = l := by
  have hmap : l.map replaceSmart = l := by
    have : ∀ x ∈ l, replaceSmart x = x :=
      fun x hx => replaceSmart_eq_self_of_ascii (hascii x hx)
    calc l.map replaceSmart = l.map id := List.map_congr_left this
    _ = l := List.map_id l
  have hfilter : l.filter isAsciiChar = l := List.filter_eq_self.mpr hascii
  have hcollapse : collapseWs l = l := (collapseAux_eq_self l hws hnd).1
  have hdw : l.dropWhile isPyWs = l := dropWhile_eq_self hhead
  have hdt : dropTrailingWs l = l := dropTrailingWs_eq_self l hlast
  unfold sanitizeList stripWs
  rw [hmap, hfilter, hcollapse, hdw, hdt]

theorem sanitizeList_idem (l : List Char) :
    sanitizeList (sanitizeList l) = sanitizeList l :=
  sanitizeList_eq_self (fun _ hx => sanitizeList_ascii hx)
    (fun _ hx h => sanitizeList_wsOnlySpace hx h)
    (sanitizeList_noDoubleWs l) (sanitizeList_headNotWs l) (sanitizeList_lastNotWs l)

theorem sanitize_ascii_idem (s : String) :
    sanitize_ascii (sanitize_ascii s) = sanitize_ascii s := by
  by_cases hs : s = ""
  · subst hs; rfl
  · have h1 : sanitize_ascii s = ⟨sanitizeList s.data⟩ := by
      simp [sanitize_ascii, hs]
    rw [h1]
    by_cases h2 : (⟨sanitizeList s.data⟩ : String) = ""
    · rw [h2]; simpa [sanitize_ascii] using h2.symm
    · have : sanitize_ascii ⟨sanitizeList s.data⟩ = ⟨sanitizeList (sanitizeList s.data)⟩ := by
        simp [sanitize_ascii, h2]
      rw [this, sanitizeList_idem]

theorem sanitize_ascii_data (s : String) (h : s ≠ "") :
    (sanitize_ascii s).data = sanitizeList s.data := by
  simp [sanitize_ascii, h]

theorem sanitize_ascii_all_ascii (s : String) :
    (sanitize_ascii s).data.all isAsciiChar = true := by
  by_cases hs : s = ""
  · subst hs; rfl
  · rw [sanitize_ascii_data s hs]
    exact List.all_eq_true.mpr fun x hx => sanitizeList_ascii hx

/-! ### Claim C10 -/

/-- C10: `_sanitize_ascii` is idempotent, and its output is canonical: it
contains only ASCII characters, has no leading or trailing whitespace, no run
of two or more consecutive whitespace characters, and every internal whitespace
character is a single space. -/
theorem C10_sanitize_idempotent_canonical (s : String) :
    sanitize_ascii (sanitize_ascii s) = sanitize_ascii s ∧
    (sanitize_ascii s).data.all isAsciiChar = true ∧
    headNotWs (sanitize_ascii s).data = true ∧
    lastNotWs (sanitize_ascii s).data = true ∧
    noDoubleWs (sanitize_ascii s).data = true ∧
    (sanitize_ascii s).data.all (fun c => !isPyWs c || c == ' ') = true := by
  refine ⟨sanitize_ascii_idem s, sanitize_ascii_all_ascii s, ?_, ?_, ?_, ?_⟩ <;>
    by_cases hs : s = ""
  · subst hs; rfl
  · rw [sanitize_ascii_data s hs]; exact sanitizeList_headNotWs _
  · subst hs; rfl
  · rw [sanitize_ascii_data s hs]; exact sanitizeList_lastNotWs _
  · subst hs; rfl
  · rw [sanitize_ascii_data s hs]; exact sanitizeList_noDoubleWs _
  · subst hs; rfl
  · rw [sanitize_ascii_data s hs]
    refine List.all_eq_true.mpr fun x hx => ?_
    cases hw : isPyWs x with
    | false => rfl
    | true => simp [sanitizeList_wsOnlySpace hx hw]

/-! ### Claim C8 -/

/-- C8: when the reply backend is unconfigured (no api key), unavailable
(import failed), or raises any error, `run_agent` returns the sanitized fixed
default reply together with the rule-based stage and surfaces no error; the
returned stage is the rule-based one whatever the backend does; and the fixed
default reply is already in sanitized form. -/
theorem C8_backend_failure_fallback (api_key : Option String) (avail : Bool)
    (backend : BackendResult) (msg nm : Option String) :
    (truthyStr api_key = false ∨ avail = false ∨ backend = .error () →
      run_agent api_key avail backend msg nm = (default_reply, ruleStage msg)) ∧
    (run_agent api_key avail backend msg nm).2 = ruleStage msg ∧
    sanitize_ascii default_reply = default_reply := by
  have hdef : sanitize_ascii default_reply = default_reply := by decide
  refine ⟨?_, ?_, hdef⟩
  · rintro (h | h | h)
    · simp [run_agent, h, hdef]
    · simp [run_agent, h, hdef]
    · subst h
      cases hb : (!truthyStr api_key || !avail) with
      | true => simp [run_agent, hb, hdef]
      | false => simp [run_agent, hb, hdef]
  · cases hb : (!truthyStr api_key || !avail) with
    | true => simp [run_agent, hb]
    | false =>
      cases backend with
      | error e => simp [run_agent, hb]
      | ok c => simp [run_agent, hb]

/-- Witness for C8 at a concrete input: unreachable backend (raised error),
concrete message. -/
theorem C8_backend_failure_fallback_witness :
    run_agent (some "sk-test") true (Except.error ()) (some "how much is delivery?")
        (some "Ali") = (default_reply, ruleStage (some "how much is delivery?")) :=
  (C8_backend_failure_fallback (some "sk-test") true (Except.error ())
    (some "how much is delivery?") (some "Ali")).1 (Or.inr (Or.inr rfl))

/-! ### Claim C5 -/

/-- C5 counterexample: the `simulate` endpoint returns its keyword-branch
reply literal verbatim; that literal contains U+2019 (in "I’ll"), is not pure
ASCII and is not a fixed point of `_sanitize_ascii` — so the reply returned by
the endpoint is not sanitized. -/
theorem C5_counterexample :
    simulateReply 1 ⟨"whatsapp", "923001234567", "price?", Option.none⟩ DB.empty
        = replyPrice ∧
    '’' ∈ replyPrice.data ∧
    replyPrice.data.all isAsciiChar = false ∧
    sanitize_ascii replyPrice ≠ replyPrice :=
  ⟨by decide, by decide, by decide, by decide⟩

/-- C5 (amended): sanitization is mandatory post-processing on every reply the
generator `run_agent` returns (on every backend path its reply is a fixed point
of `_sanitize_ascii` and pure ASCII, with U+2019/U+2014 replaced), but the
`simulate` endpoint does not sanitize: it returns one of its two inline reply
literals verbatim, and the keyword-branch literal contains U+2019. -/
theorem C5_amended_only_generator_sanitizes
    (api_key : Option String) (avail : Bool) (backend : BackendResult)
    (msg nm : Option String) (t : Nat) (p : SimulateIn) (db : DB) :
    sanitize_ascii (run_agent api_key avail backend msg nm).1
        = (run_agent api_key avail backend msg nm).1 ∧
    ((run_agent api_key avail backend msg nm).1).data.all isAsciiChar = true ∧
    sanitize_ascii "’—" = "'-" ∧
    simulateReply t p db = (if simKeyword p.text then replyPrice else replyOther) ∧
    '’' ∈ replyPrice.data := by
  refine ⟨?_, ?_, by decide, rfl, by decide⟩
  · cases hb : (!truthyStr api_key || !avail) with
    | true => simp [run_agent, hb, sanitize_ascii_idem]
    | false =>
      cases backend with
      | error e => simp [run_agent, hb, sanitize_ascii_idem]
      | ok c => simp [run_agent, hb, sanitize_ascii_idem]
  · cases hb : (!truthyStr api_key || !avail) with
    | true => simp [run_agent, hb, sanitize_ascii_all_ascii]
    | false =>
      cases backend with
      | error e => simp [run_agent, hb, sanitize_ascii_all_ascii]
      | ok c => simp [run_agent, hb, sanitize_ascii_all_ascii]

/-! ### Projection lemmas for the simulate steps -/

theorem contactPhase_deals (t : Nat) (p : SimulateIn) (db : DB) :
    (contactPhase t p db).1.deals = db.deals := by
  unfold contactPhase
  cases findContact db.contacts t p with
  | none => rfl
  | some c =>
    dsimp only
    split <;> rfl

theorem contactPhase_messages (t : Nat) (p : SimulateIn) (db : DB) :
    (contactPhase t p db).1.messages = db.messages := by
  unfold contactPhase
  cases findContact db.contacts t p with
  | none => rfl
  | some c =>
    dsimp only
    split <;> rfl

theorem dealPhase_contacts (t cid : Nat) (db : DB) :
    (dealPhase t cid db).1.contacts = db.contacts := by
  unfold dealPhase
  cases findDeal db.deals t cid <;> rfl

theorem dealPhase_messages (t cid : Nat) (db : DB) :
    (dealPhase t cid db).1.messages = db.messages := by
  unfold dealPhase
  cases findDeal db.deals t cid <;> rfl

theorem appendMessage_messages (db : DB) (t cid : Nat) (ch dir tx : String) :
    (appendMessage db t cid ch dir tx).1.messages =
      db.messages ++ [(appendMessage db t cid ch dir tx).2] := rfl

theorem db1of_messages (t : Nat) (p : SimulateIn) (db : DB) :
    (db1of t p db).messages = db.messages := contactPhase_messages t p db

theorem db1of_deals (t : Nat) (p : SimulateIn) (db : DB) :
    (db1of t p db).deals = db.deals := contactPhase_deals t p db

theorem db2of_messages (t : Nat) (p : SimulateIn) (db : DB) :
    (db2of t p db).messages = db.messages ++ [msgInOf t p db] := by
  show (appendMessage (db1of t p db) t (contactOf t p db).id p.channel "in" p.text).1.messages = _
  rw [appendMessage_messages, db1of_messages]
  rfl

theorem db2of_deals (t : Nat) (p : SimulateIn) (db : DB) :
    (db2of t p db).deals = db.deals := db1of_deals t p db

theorem db2of_contacts (t : Nat) (p : SimulateIn) (db : DB) :
    (db2of t p db).contacts = (db1of t p db).contacts := rfl

theorem db3of_messages (t : Nat) (p : SimulateIn) (db : DB) :
    (db3of t p db).messages = (db2of t p db).messages :=
  dealPhase_messages t (contactOf t p db).id (db2of t p db)

theorem db3of_contacts (t : Nat) (p : SimulateIn) (db : DB) :
    (db3of t p db).contacts = (db1of t p db).contacts :=
  dealPhase_contacts t (contactOf t p db).id (db2of t p db)

theorem db4of_messages (t : Nat) (p : SimulateIn) (db : DB) :
    (db4of t p db).messages = (db3of t p db).messages := rfl

theorem db4of_contacts (t : Nat) (p : SimulateIn) (db : DB) :
    (db4of t p db).contacts = (db3of t p db).contacts := rfl

theorem db5of_messages (t : Nat) (p : SimulateIn) (db : DB) :
    (db5of t p db).messages = (db4of t p db).messages ++ [msgOutOf t p db] :=
  appendMessage_messages _ _ _ _ _ _

theorem db5of_contacts (t : Nat) (p : SimulateIn) (db : DB) :
    (db5of t p db).contacts = (db4of t p db).contacts := rfl

theorem db5of_deals (t : Nat) (p : SimulateIn) (db : DB) :
    (db5of t p db).deals = (db4of t p db).deals := rfl

theorem getLastD_append_pair {α : Type _} (l : List α) (x y d : α) :
    (l ++ [x, y]).getLastD d = y := by
  have h : l ++ [x, y] = (l ++ [x]) ++ [y] := by simp
  rw [h, List.getLastD_concat]

theorem take_append_pair {α : Type _} (l : List α) (x y : α) :
    (l ++ [x, y]).take (l.length + 1) = l ++ [x] := by
  have h : l ++ [x, y] = (l ++ [x]) ++ [y] := by simp
  calc (l ++ [x, y]).take (l.length + 1)
      = ((l ++ [x]) ++ [y]).take ((l ++ [x]).length + 0) := by
        rw [h]; congr 1; simp
    _ = (l ++ [x]) ++ [y].take 0 := List.take_append 0
    _ = l ++ [x] := by simp

theorem simulateRun_commits (t : Nat) (p : SimulateIn) (db : DB) :
    (simulateRun t p db).commits =
      ((contactPhase t p db).2.1 ++ [db2of t p db] ++
        (dealPhase t (contactOf t p db).id (db2of t p db)).2.1) ++
      [db4of t p db, db5of t p db] := by
  simp [simulateRun, List.append_assoc]

theorem simulate_eq_db5 (t : Nat) (p : SimulateIn) (db : DB) :
    simulate t p db = db5of t p db := by
  unfold simulate
  rw [simulateRun_commits, getLastD_append_pair]

theorem simulateFailAt_last (t : Nat) (p : SimulateIn) (db : DB) :
    simulateFailAt ((simulateRun t p db).commits.length - 1) t p db = db4of t p db := by
  unfold simulateFailAt
  rw [simulateRun_commits]
  have hlen :
      ((((contactPhase t p db).2.1 ++ [db2of t p db] ++
        (dealPhase t (contactOf t p db).id (db2of t p db)).2.1) ++
        [db4of t p db, db5of t p db]).length - 1) =
      ((contactPhase t p db).2.1 ++ [db2of t p db] ++
        (dealPhase t (contactOf t p db).id (db2of t p db)).2.1).length + 1 := by
    simp
    omega
  rw [hlen, take_append_pair]
  have h : ∀ (l : List DB) (x d : DB), (l ++ [x]).getLastD d = x :=
    fun l x d => List.getLastD_concat d x l
  rw [h]

/-! ### Claim C9 -/

/-- C9: every completed simulate cycle appends exactly two Message rows for the
same (tenant_id, contact_id) — the inbound one (direction "in", the inbound
text) first, then the outbound one (direction "out", the returned reply) — and
all previously stored messages are unchanged (the ledger is append-only). -/
theorem C9_ledger_append_in_out (t : Nat) (p : SimulateIn) (db : DB) :
    ∃ m1 m2 : Message,
      (simulate t p db).messages = db.messages ++ [m1, m2] ∧
      m1.direction = "in" ∧ m1.text = p.text ∧ m1.tenant_id = t ∧
      m1.channel = p.channel ∧
      m2.direction = "out" ∧ m2.text = simulateReply t p db ∧ m2.tenant_id = t ∧
      m2.channel = p.channel ∧ m2.contact_id = m1.contact_id := by
  refine ⟨msgInOf t p db, msgOutOf t p db, ?_, rfl, rfl, rfl, rfl, rfl, rfl, rfl, rfl, rfl⟩
  rw [simulate_eq_db5, db5of_messages, db4of_messages, db3of_messages, db2of_messages,
    List.append_assoc]
  rfl

/-! ### Claim C3 -/

/-- C3 counterexample: with a persistence failure at the fifth commit (the
outbound-message insert) of a fresh simulate call, the committed state keeps
the inbound message (and the contact and deal writes): it is neither the
initial state nor the fully-committed state, so a partial subset of the
cycle's writes remains committed. -/
theorem C3_counterexample :
    (simulateFailAt 4 1 ⟨"whatsapp", "923001234567", "hello", Option.none⟩
        DB.empty).messages.map (·.direction) = ["in"] ∧
    simulateFailAt 4 1 ⟨"whatsapp", "923001234567", "hello", Option.none⟩ DB.empty
        ≠ DB.empty ∧
    simulateFailAt 4 1 ⟨"whatsapp", "923001234567", "hello", Option.none⟩ DB.empty
        ≠ simulate 1 ⟨"whatsapp", "923001234567", "hello", Option.none⟩ DB.empty := by
  refine ⟨by decide, by decide, by decide⟩

/-- C3 (amended): one simulate call is not a single unit of work: it commits
after each step. A failure before the first commit leaves the base state; a
failure at the last (outbound-message) commit leaves everything up to the
stage update committed — in particular the inbound message — while the
outbound message of the completed run is missing. -/
theorem C3_amended_commits_are_per_step (t : Nat) (p : SimulateIn) (db : DB) :
    simulateFailAt 0 t p db = db ∧
    (simulateFailAt ((simulateRun t p db).commits.length - 1) t p db).messages
        = db.messages ++ [msgInOf t p db] ∧
    (msgInOf t p db).direction = "in" ∧ (msgInOf t p db).text = p.text ∧
    (simulate t p db).messages = db.messages ++ [msgInOf t p db, msgOutOf t p db] ∧
    (msgOutOf t p db).direction = "out" ∧ (msgOutOf t p db).text = simulateReply t p db := by
  refine ⟨rfl, ?_, rfl, rfl, ?_, rfl, rfl⟩
  · rw [simulateFailAt_last, db4of_messages, db3of_messages, db2of_messages]
  · rw [simulate_eq_db5, db5of_messages, db4of_messages, db3of_messages, db2of_messages,
      List.append_assoc]
    rfl

/-! ### Claim C4 -/

/-- C4 counterexample: an open deal at stage "order" is downgraded to
"qualified" (lower in the funnel order) by processing a message containing the
keyword "price". -/
theorem C4_counterexample :
    (simulate 1 ⟨"whatsapp", "923001234567", "price", Option.none⟩
        ⟨[⟨1, 1, "whatsapp", "923001234567", some "Ali", Option.none⟩],
          [⟨1, 1, 1, "order", "open"⟩], []⟩).deals.map (·.stage) = ["qualified"] ∧
    simulateStage 1 ⟨"whatsapp", "923001234567", "price", Option.none⟩
        ⟨[⟨1, 1, "whatsapp", "923001234567", some "Ali", Option.none⟩],
          [⟨1, 1, 1, "order", "open"⟩], []⟩ = "qualified" ∧
    funnelRank "qualified" < funnelRank "order" := by
  refine ⟨by decide, by decide, by decide⟩

/-- C4 (amended): the handler's stage rule never regresses between "new" and
"qualified": a message without the handler's purchase-intent keywords leaves
the resolved deal's stage unchanged (normalising "" to "new"), and a deal
already at "qualified" stays at "qualified" on any message; but a keyword
message writes "qualified" unconditionally, which downgrades a deal whose
stage is higher ("order", "closed"). -/
theorem C4_amended_stage_rule (t : Nat) (p : SimulateIn) (db : DB) :
    (simKeyword p.text = false →
        simulateStage t p db =
          (if (dealOf t p db).stage = "" then "new" else (dealOf t p db).stage)) ∧
    ((dealOf t p db).stage = "qualified" → simulateStage t p db = "qualified") ∧
    (simKeyword p.text = true → simulateStage t p db = "qualified") := by
  refine ⟨?_, ?_, ?_⟩
  · intro h; simp [simulateStage, simulateRun, newStageOf, h]
  · intro h
    cases hk : simKeyword p.text with
    | true => simp [simulateStage, simulateRun, newStageOf, hk]
    | false => simp [simulateStage, simulateRun, newStageOf, hk, h]
  · intro h; simp [simulateStage, simulateRun, newStageOf, h]

/-- Witness for C4 (amended) at concrete inputs: a keyword-free message on a
deal at "qualified" keeps "qualified"; a keyword message on a fresh database
yields "qualified". -/
theorem C4_amended_stage_rule_witness :
    simulateStage 1 ⟨"whatsapp", "92", "ok thanks", Option.none⟩
        ⟨[⟨1, 1, "whatsapp", "92", Option.none, Option.none⟩],
          [⟨1, 1, 1, "qualified", "open"⟩], []⟩ = "qualified" ∧
    simulateStage 1 ⟨"whatsapp", "92", "what is the rate", Option.none⟩ DB.empty
        = "qualified" :=
  ⟨(C4_amended_stage_rule 1 ⟨"whatsapp", "92", "ok thanks", Option.none⟩
      ⟨[⟨1, 1, "whatsapp", "92", Option.none, Option.none⟩],
        [⟨1, 1, 1, "qualified", "open"⟩], []⟩).2.1 (by decide),
   (C4_amended_stage_rule 1 ⟨"whatsapp", "92", "what is the rate", Option.none⟩
      DB.empty).2.2 (by decide)⟩

/-! ### Lemmas about contact resolution -/

theorem findContact_some {contacts : List Contact} {t : Nat} {p : SimulateIn} {c : Contact}
    (h : findContact contacts t p = some c) :
    c ∈ contacts ∧ c.tenant_id = t ∧ c.channel = p.channel ∧
      c.channel_user_id = p.channel_user_id := by
  refine ⟨List.mem_of_find?_eq_some h, ?_⟩
  have hp := List.find?_some h
  simp only [Bool.and_eq_true, beq_iff_eq] at hp
  exact ⟨hp.1.1, hp.1.2, hp.2⟩

theorem contactOf_fields (t : Nat) (p : SimulateIn) (db : DB) :
    (contactOf t p db).tenant_id = t ∧ (contactOf t p db).channel = p.channel ∧
      (contactOf t p db).channel_user_id = p.channel_user_id := by
  unfold contactOf contactPhase
  cases hc : findContact db.contacts t p with
  | none => exact ⟨rfl, rfl, rfl⟩
  | some c =>
    have hf := findContact_some hc
    dsimp only
    cases hcond : truthyStr p.contact_name && !truthyStr c.contact_name with
    | true => simpa using ⟨hf.2.1, hf.2.2.1, hf.2.2.2⟩
    | false => simpa using ⟨hf.2.1, hf.2.2.1, hf.2.2.2⟩

theorem findContact_db1 (t : Nat) (p : SimulateIn) (db : DB) :
    findContact (db1of t p db).contacts t p = some (contactOf t p db) := by
  unfold db1of contactOf contactPhase
  cases hc : findContact db.contacts t p with
  | none =>
    dsimp only
    unfold findContact at hc ⊢
    rw [List.find?_append, hc]
    simp [List.find?]
  | some c =>
    dsimp only
    cases hcond : truthyStr p.contact_name && !truthyStr c.contact_name with
    | false =>
      rw [if_neg (by simp)]
      exact hc
    | true =>
      rw [if_pos rfl]
      unfold findContact at hc ⊢
      rw [List.find?_map]
      have hpf : (fun x : Contact =>
          x.tenant_id == t && x.channel == p.channel && x.channel_user_id == p.channel_user_id) ∘
          (fun x : Contact =>
            if x.id = c.id then { x with contact_name := p.contact_name } else x) =
          (fun x : Contact =>
            x.tenant_id == t && x.channel == p.channel && x.channel_user_id == p.channel_user_id) := by
        funext x
        simp only [Function.comp]
        split <;> rfl
      rw [hpf, hc]
      simp

theorem contactName_cond_false (t : Nat) (p : SimulateIn) (db : DB) :
    (truthyStr p.contact_name && !truthyStr (contactOf t p db).contact_name) = false := by
  unfold contactOf contactPhase
  cases hc : findContact db.contacts t p with
  | none =>
    dsimp only
    cases ht : truthyStr p.contact_name <;> simp [ht]
  | some c =>
    dsimp only
    cases hcond : truthyStr p.contact_name && !truthyStr c.contact_name with
    | false =>
      rw [if_neg (by simp)]
      exact hcond
    | true =>
      rw [if_pos rfl]
      rw [Bool.and_eq_true] at hcond
      simp [hcond.1]

theorem contactPhase_of_found {t : Nat} {p : SimulateIn} {db : DB} {c : Contact}
    (h : findContact db.contacts t p = some c)
    (h2 : (truthyStr p.contact_name && !truthyStr c.contact_name) = false) :
    contactPhase t p db = (db, [], c) := by
  unfold contactPhase
  rw [h]
  dsimp only
  rw [h2]
  rfl

/-! ### Lemmas about deal resolution -/

theorem firstMaxId_foldl_mem :
    ∀ (l : List Deal) (acc : Option Deal) (d : Deal),
      l.foldl (fun acc d =>
        match acc with
        | Option.none => some d
        | some b => if b.id < d.id then some d else some b) acc = some d →
      d ∈ l ∨ acc = some d
  | [], _, _, h => Or.inr h
  | c :: t, acc, d, h => by
    rcases firstMaxId_foldl_mem t _ d h with h1 | h1
    · exact Or.inl (List.mem_cons_of_mem _ h1)
    · cases acc with
      | none =>
        rw [Option.some_inj] at h1
        exact Or.inl (h1 ▸ List.mem_cons_self _ _)
      | some b =>
        dsimp only at h1
        split at h1
        · rw [Option.some_inj] at h1
          exact Or.inl (h1 ▸ List.mem_cons_self _ _)
        · exact Or.inr h1

theorem firstMaxId_mem {l : List Deal} {d : Deal} (h : firstMaxId l = some d) : d ∈ l := by
  rcases firstMaxId_foldl_mem l Option.none d h with h1 | h1
  · exact h1
  · exact absurd h1 (by simp)

theorem firstMaxId_foldl_max :
    ∀ (l : List Deal) (acc : Option Deal) (d : Deal),
      l.foldl (fun acc d =>
        match acc with
        | Option.none => some d
        | some b => if b.id < d.id then some d else some b) acc = some d →
      (∀ x ∈ l, x.id ≤ d.id) ∧ (∀ b, acc = some b → b.id ≤ d.id)
  | [], acc, d, h => by
    refine ⟨by simp, fun b hb => ?_⟩
    rw [List.foldl_nil] at h
    rw [hb] at h
    rw [Option.some_inj] at h
    exact h ▸ le_refl _
  | c :: t, acc, d, h => by
    have step : ∀ z, (match acc with
        | Option.none => some c
        | some b => if b.id < c.id then some c else some b) = some z →
        c.id ≤ z.id ∧ (∀ b, acc = some b → b.id ≤ z.id) := by
      intro z hz
      cases acc with
      | none =>
        rw [Option.some_inj] at hz
        exact ⟨hz ▸ le_refl _, fun b hb => by simp at hb⟩
      | some b =>
        dsimp only at hz
        split at hz <;> rw [Option.some_inj] at hz
        · rename_i hlt
          exact ⟨hz ▸ le_refl _, fun b' hb' => by
            rw [Option.some_inj] at hb'
            exact hb' ▸ hz ▸ Nat.le_of_lt hlt⟩
        · rename_i hlt
          exact ⟨hz ▸ Nat.le_of_not_lt hlt, fun b' hb' => by
            rw [Option.some_inj] at hb'
            exact hb' ▸ hz ▸ le_refl _⟩
    have ih := firstMaxId_foldl_max t _ d h
    have hsome : ∃ z, (match acc with
        | Option.none => some c
        | some b => if b.id < c.id then some c else some b) = some z := by
      cases acc with
      | none => exact ⟨c, rfl⟩
      | some b =>
        dsimp only
        split
        · exact ⟨c, rfl⟩
        · exact ⟨b, rfl⟩
    obtain ⟨z, hz⟩ := hsome
    have hstep := step z hz
    have hzd : z.id ≤ d.id := ih.2 z hz
    refine ⟨fun x hx => ?_, fun b hb => le_trans (hstep.2 b hb) hzd⟩
    rcases List.mem_cons.mp hx with h1 | h1
    · exact h1 ▸ le_trans hstep.1 hzd
    · exact ih.1 x h1

theorem firstMaxId_max {l : List Deal} {d : Deal} (h : firstMaxId l = some d) :
    ∀ x ∈ l, x.id ≤ d.id :=
  (firstMaxId_foldl_max l Option.none d h).1

theorem firstMaxId_nil_of_none {l : List Deal} (h : firstMaxId l = Option.none) : l = [] := by
  cases l with
  | nil => rfl
  | cons c t =>
    exfalso
    have hsome : ∀ (l' : List Deal) (acc : Deal),
        ∃ z, l'.foldl (fun acc d =>
          match acc with
          | Option.none => some d
          | some b => if b.id < d.id then some d else some b) (some acc) = some z := by
      intro l'
      induction l' with
      | nil => exact fun acc => ⟨acc, rfl⟩
      | cons e t' ih =>
        intro acc
        dsimp only [List.foldl]
        split
        · exact ih e
        · exact ih acc
    obtain ⟨z, hz⟩ := hsome t c
    rw [firstMaxId] at h
    dsimp only [List.foldl] at h
    rw [hz] at h
    exact absurd h (by simp)

theorem firstMaxId_append_fresh {l : List Deal} {d : Deal}
    (h : ∀ x ∈ l, x.id < d.id) : firstMaxId (l ++ [d]) = some d := by
  unfold firstMaxId at *
  rw [List.foldl_append]
  cases hfm : l.foldl (fun acc d =>
      match acc with
      | Option.none => some d
      | some b => if b.id < d.id then some d else some b) Option.none with
  | none => rfl
  | some b =>
    have hb : b ∈ l := firstMaxId_mem hfm
    dsimp only [List.foldl]
    rw [if_pos (h b hb)]

theorem le_foldr_max : ∀ (ids : List Nat), ∀ i ∈ ids, i ≤ ids.foldr max 0
  | [], i, h => by simp at h
  | a :: t, i, h => by
    rcases List.mem_cons.mp h with h1 | h1
    · exact h1 ▸ le_max_left _ _
    · exact le_trans (le_foldr_max t i h1) (le_max_right _ _)

theorem lt_nextId {ids : List Nat} {i : Nat} (h : i ∈ ids) : i < nextId ids :=
  Nat.lt_succ_of_le (le_foldr_max ids i h)

theorem mem_openDealsFor {deals : List Deal} {t cid : Nat} {d : Deal}
    (h : d ∈ openDealsFor deals t cid) :
    d ∈ deals ∧ d.tenant_id = t ∧ d.contact_id = cid ∧ d.status = "open" := by
  have := List.mem_filter.mp h
  refine ⟨this.1, ?_⟩
  have hp := this.2
  simp only [Bool.and_eq_true, beq_iff_eq] at hp
  exact ⟨hp.1.1, hp.1.2, hp.2⟩

theorem openDealsFor_append (deals extra : List Deal) (t cid : Nat) :
    openDealsFor (deals ++ extra) t cid =
      openDealsFor deals t cid ++ openDealsFor extra t cid :=
  List.filter_append _ _

theorem findDeal_some_props {deals : List Deal} {t cid : Nat} {d : Deal}
    (h : findDeal deals t cid = some d) :
    d ∈ deals ∧ d.tenant_id = t ∧ d.contact_id = cid ∧ d.status = "open" ∧
      ∀ d' ∈ openDealsFor deals t cid, d'.id ≤ d.id := by
  have hmem := firstMaxId_mem h
  have hprops := mem_openDealsFor hmem
  exact ⟨hprops.1, hprops.2.1, hprops.2.2.1, hprops.2.2.2, firstMaxId_max h⟩

theorem openDealsFor_nil_of_findDeal_none {deals : List Deal} {t cid : Nat}
    (h : findDeal deals t cid = Option.none) : openDealsFor deals t cid = [] :=
  firstMaxId_nil_of_none h

theorem dealPhase_found {t cid : Nat} {db : DB} {d : Deal}
    (h : findDeal db.deals t cid = some d) : dealPhase t cid db = (db, [], d) := by
  unfold dealPhase
  rw [h]

theorem dealPhase_none {t cid : Nat} {db : DB}
    (h : findDeal db.deals t cid = Option.none) :
    dealPhase t cid db =
      ({ db with deals := db.deals ++
          [⟨nextDealId db, t, cid, "new", "open"⟩] },
        [{ db with deals := db.deals ++ [⟨nextDealId db, t, cid, "new", "open"⟩] }],
        ⟨nextDealId db, t, cid, "new", "open"⟩) := by
  unfold dealPhase
  rw [h]

theorem findDeal_dealPhase (t cid : Nat) (db : DB) :
    findDeal ((dealPhase t cid db).1).deals t cid = some ((dealPhase t cid db).2.2) := by
  cases hd : findDeal db.deals t cid with
  | some d => rw [dealPhase_found hd]; exact hd
  | none =>
    rw [dealPhase_none hd]
    dsimp only
    unfold findDeal
    rw [openDealsFor_append, openDealsFor_nil_of_findDeal_none hd, List.nil_append]
    have : openDealsFor [⟨nextDealId db, t, cid, "new", "open"⟩] t cid =
        [⟨nextDealId db, t, cid, "new", "open"⟩] := by
      simp [openDealsFor, List.filter]
    rw [this]
    rfl

/-! ### Claim C1 -/

/-- C1: the resolve step is idempotent: running it twice in sequence with the
same (tenant, channel, channel_user_id) triple resolves the same Contact
(hence the same contact id) both times; the Deal returned by the first call
still has status "open", and the second call returns the same Deal id (in
fact the same Deal row). -/
theorem C1_idempotent_resolution (t : Nat) (p : SimulateIn) (db : DB) :
    (resolve t p (resolve t p db).1).2.1.id = (resolve t p db).2.1.id ∧
    (resolve t p db).2.2.status = "open" ∧
    (resolve t p (resolve t p db).1).2.2.id = (resolve t p db).2.2.id := by
  have hfound : findContact (db3of t p db).contacts t p = some (contactOf t p db) := by
    rw [db3of_contacts]
    exact findContact_db1 t p db
  have hcp : contactPhase t p (db3of t p db) = (db3of t p db, [], contactOf t p db) :=
    contactPhase_of_found hfound (contactName_cond_false t p db)
  have hc2 : contactOf t p (db3of t p db) = contactOf t p db := by
    unfold contactOf
    rw [hcp]
    rfl
  have hdb1 : db1of t p (db3of t p db) = db3of t p db := by
    unfold db1of
    rw [hcp]
  -- the deal tables seen by the second deal query are those left by the first
  have hdeals2 : (db2of t p (db3of t p db)).deals = (db3of t p db).deals := by
    unfold db2of
    rw [hdb1]
    rfl
  have hfd : findDeal (db2of t p (db3of t p db)).deals t (contactOf t p (db3of t p db)).id =
      some (dealOf t p db) := by
    rw [hdeals2, hc2]
    exact findDeal_dealPhase t (contactOf t p db).id (db2of t p db)
  have hdeal2 : dealOf t p (db3of t p db) = dealOf t p db := by
    unfold dealOf
    rw [dealPhase_found hfd]
    rfl
  have hstatus : (dealOf t p db).status = "open" := by
    cases hd : findDeal (db2of t p db).deals t (contactOf t p db).id with
    | some d =>
      have : dealOf t p db = d := by unfold dealOf; rw [dealPhase_found hd]
      rw [this]
      exact (findDeal_some_props hd).2.2.2.1
    | none =>
      have : dealOf t p db = ⟨nextDealId (db2of t p db), t, (contactOf t p db).id,
          "new", "open"⟩ := by
        unfold dealOf; rw [dealPhase_none hd]
      rw [this]
  refine ⟨?_, hstatus, ?_⟩
  · show (contactOf t p (db3of t p db)).id = (contactOf t p db).id
    rw [hc2]
  · show (dealOf t p (db3of t p db)).id = (dealOf t p db).id
    rw [hdeal2]

/-! ### Deal-table shape of a simulate call (for C2 and C6) -/

theorem nextDealId_db2of (t : Nat) (p : SimulateIn) (db : DB) :
    nextDealId (db2of t p db) = nextDealId db := by
  unfold nextDealId
  rw [db2of_deals]

theorem simulate_deals (t : Nat) (p : SimulateIn) (db : DB) :
    (simulate t p db).deals =
      stageUpdate (db3of t p db).deals (dealOf t p db).id (newStageOf t p db) := by
  rw [simulate_eq_db5]
  rfl

theorem db3of_deals_found {t : Nat} {p : SimulateIn} {db : DB} {d : Deal}
    (h : findDeal db.deals t (contactOf t p db).id = some d) :
    (db3of t p db).deals = db.deals ∧ dealOf t p db = d := by
  have h2 : findDeal (db2of t p db).deals t (contactOf t p db).id = some d := by
    rw [db2of_deals]; exact h
  constructor
  · show (dealPhase t (contactOf t p db).id (db2of t p db)).1.deals = _
    rw [dealPhase_found h2]
    exact db2of_deals t p db
  · show (dealPhase t (contactOf t p db).id (db2of t p db)).2.2 = _
    rw [dealPhase_found h2]

theorem db3of_deals_none {t : Nat} {p : SimulateIn} {db : DB}
    (h : findDeal db.deals t (contactOf t p db).id = Option.none) :
    (db3of t p db).deals =
      db.deals ++ [⟨nextDealId db, t, (contactOf t p db).id, "new", "open"⟩] ∧
    dealOf t p db = ⟨nextDealId db, t, (contactOf t p db).id, "new", "open"⟩ := by
  have h2 : findDeal (db2of t p db).deals t (contactOf t p db).id = Option.none := by
    rw [db2of_deals]; exact h
  constructor
  · show (dealPhase t (contactOf t p db).id (db2of t p db)).1.deals = _
    rw [dealPhase_none h2]
    dsimp only
    rw [db2of_deals, nextDealId_db2of]
  · show (dealPhase t (contactOf t p db).id (db2of t p db)).2.2 = _
    rw [dealPhase_none h2]
    dsimp only
    rw [nextDealId_db2of]

theorem length_openDealsFor_stageUpdate (deals : List Deal) (did : Nat) (s : String)
    (t cid : Nat) :
    (openDealsFor (stageUpdate deals did s) t cid).length =
      (openDealsFor deals t cid).length := by
  unfold openDealsFor stageUpdate
  rw [List.map_filter]
  rw [List.length_map]
  congr 1
  apply List.filter_congr
  intro x _
  simp only [Function.comp]
  split <;> rfl

/-! ### Claim C2 -/

/-- C2: a simulate call preserves the at-most-one-open-deal invariant per
(tenant_id, contact_id); the handler creates a new deal (stage "new", status
"open") only when no open deal exists for the contact; and when one or more
open deals exist it reuses (without creating anything) the open deal with the
greatest id. -/
theorem C2_at_most_one_open_deal (t : Nat) (p : SimulateIn) (db : DB) :
    (AtMostOneOpen db → AtMostOneOpen (simulate t p db)) ∧
    (∀ cid d, findDeal db.deals t cid = some d →
      (dealPhase t cid db).1 = db ∧ (dealPhase t cid db).2.2 = d ∧
      d ∈ openDealsFor db.deals t cid ∧ d.status = "open" ∧
      ∀ d' ∈ openDealsFor db.deals t cid, d'.id ≤ d.id) ∧
    (∀ cid, findDeal db.deals t cid = Option.none →
      (dealPhase t cid db).1.deals =
        db.deals ++ [⟨nextDealId db, t, cid, "new", "open"⟩]) := by
  refine ⟨?_, ?_, ?_⟩
  · intro hinv t' c'
    rw [simulate_deals, length_openDealsFor_stageUpdate]
    cases hd : findDeal db.deals t (contactOf t p db).id with
    | some d =>
      rw [(db3of_deals_found hd).1]
      exact hinv t' c'
    | none =>
      rw [(db3of_deals_none hd).1, openDealsFor_append]
      by_cases hpair : t' = t ∧ c' = (contactOf t p db).id
      · have h0 : openDealsFor db.deals t' c' = [] := by
          rw [hpair.1, hpair.2]
          exact openDealsFor_nil_of_findDeal_none hd
        rw [h0, List.nil_append]
        exact le_trans (List.length_filter_le _ _) (by simp)
      · have h1 : openDealsFor
            [⟨nextDealId db, t, (contactOf t p db).id, "new", "open"⟩] t' c' = [] := by
          rcases not_and_or.mp hpair with hne | hne
          · have hb : ((⟨nextDealId db, t, (contactOf t p db).id, "new", "open"⟩ :
                Deal).tenant_id == t') = false := beq_eq_false_iff_ne.mpr (Ne.symm hne)
            simp [openDealsFor, List.filter_cons, hb]
          · have hb : ((⟨nextDealId db, t, (contactOf t p db).id, "new", "open"⟩ :
                Deal).contact_id == c') = false := beq_eq_false_iff_ne.mpr (Ne.symm hne)
            simp [openDealsFor, List.filter_cons, hb]
        rw [h1, List.append_nil]
        exact hinv t' c'
  · intro cid d h
    have hp := findDeal_some_props h
    exact ⟨by rw [dealPhase_found h], by rw [dealPhase_found h],
      firstMaxId_mem h, hp.2.2.2.1, hp.2.2.2.2⟩
  · intro cid h
    rw [dealPhase_none h]

/-- Witness for C2 at concrete inputs: the invariant holds after a simulate
call on the empty database; a database holding one open deal is reused
unchanged; deal creation on the empty database appends the new open deal. -/
theorem C2_at_most_one_open_deal_witness :
    AtMostOneOpen (simulate 1 ⟨"whatsapp", "92", "hi", Option.none⟩ DB.empty) ∧
    (dealPhase 1 7 ⟨[], [⟨5, 1, 7, "new", "open"⟩], []⟩).1 =
      ⟨[], [⟨5, 1, 7, "new", "open"⟩], []⟩ ∧
    (dealPhase 1 3 DB.empty).1.deals =
      DB.empty.deals ++ [⟨nextDealId DB.empty, 1, 3, "new", "open"⟩] := by
  refine ⟨?_, ?_, ?_⟩
  · exact (C2_at_most_one_open_deal 1 ⟨"whatsapp", "92", "hi", Option.none⟩ DB.empty).1
      (fun t c => by simp [AtMostOneOpen, openDealsFor, DB.empty])
  · exact ((C2_at_most_one_open_deal 1 ⟨"whatsapp", "92", "hi", Option.none⟩
      ⟨[], [⟨5, 1, 7, "new", "open"⟩], []⟩).2.1 7 ⟨5, 1, 7, "new", "open"⟩ (by decide)).1
  · exact (C2_at_most_one_open_deal 1 ⟨"whatsapp", "92", "hi", Option.none⟩ DB.empty).2.2
      3 (by decide)

/-! ### Frame lemmas: a simulate call only touches rows of its own tenant -/

theorem simulate_messages_eq (t : Nat) (p : SimulateIn) (db : DB) :
    (simulate t p db).messages = db.messages ++ [msgInOf t p db, msgOutOf t p db] := by
  rw [simulate_eq_db5, db5of_messages, db4of_messages, db3of_messages, db2of_messages,
    List.append_assoc]
  rfl

theorem simulate_contacts_eq (t : Nat) (p : SimulateIn) (db : DB) :
    (simulate t p db).contacts = (contactPhase t p db).1.contacts := by
  rw [simulate_eq_db5, db5of_contacts, db4of_contacts, db3of_contacts]
  rfl

theorem filter_map_untouched {α : Type _} (q : α → Bool) (f : α → α) :
    ∀ l : List α, (∀ x ∈ l, f x = x ∨ (q x = false ∧ q (f x) = false)) →
      (l.map f).filter q = l.filter q
  | [], _ => rfl
  | a :: l, h => by
    have ih := filter_map_untouched q f l (fun x hx => h x (List.mem_cons_of_mem _ hx))
    rcases h a (List.mem_cons_self _ _) with ha | ⟨ha1, ha2⟩
    · simp only [List.map_cons, List.filter_cons, ha, ih]
    · simp only [List.map_cons, List.filter_cons, ha1, ha2, ih]
      simp

theorem ne_nextDealId {db : DB} {x : Deal} (h : x ∈ db.deals) : x.id ≠ nextDealId db :=
  Nat.ne_of_lt (lt_nextId (List.mem_map_of_mem (·.id) h))

theorem contacts_filter_simulate (t t' : Nat) (p : SimulateIn) (db : DB)
    (hWFc : (db.contacts.map (·.id)).Nodup) (hne : t' ≠ t) :
    (simulate t p db).contacts.filter (·.tenant_id == t') =
      db.contacts.filter (·.tenant_id == t') := by
  have hb : (t == t') = false := beq_eq_false_iff_ne.mpr (Ne.symm hne)
  rw [simulate_contacts_eq]
  unfold contactPhase
  cases hc : findContact db.contacts t p with
  | none =>
    dsimp only
    rw [List.filter_append]
    have hnew : List.filter (fun c : Contact => c.tenant_id == t')
        [⟨nextContactId db, t, p.channel, p.channel_user_id, p.contact_name,
          if p.channel = "whatsapp" then some p.channel_user_id else Option.none⟩] = [] := by
      simp [List.filter_cons, hb]
    rw [hnew, List.append_nil]
  | some c =>
    have hf := findContact_some hc
    dsimp only
    cases hcond : truthyStr p.contact_name && !truthyStr c.contact_name with
    | false => rw [if_neg (by simp)]
    | true =>
      rw [if_pos rfl]
      dsimp only
      apply filter_map_untouched
      intro x hx
      by_cases hid : x.id = c.id
      · right
        have hxc : x = c := List.inj_on_of_nodup_map hWFc hx hf.1 hid
        subst hxc
        refine ⟨?_, ?_⟩
        · rw [show x.tenant_id = t from hf.2.1] at *
          simpa using hb
        · rw [if_pos hid]
          show (x.tenant_id == t') = false
          rw [show x.tenant_id = t from hf.2.1]
          exact hb
      · left
        rw [if_neg hid]

theorem deals_filter_simulate (t t' : Nat) (p : SimulateIn) (db : DB)
    (hWFd : (db.deals.map (·.id)).Nodup) (hne : t' ≠ t) :
    (simulate t p db).deals.filter (·.tenant_id == t') =
      db.deals.filter (·.tenant_id == t') := by
  have hb : (t == t') = false := beq_eq_false_iff_ne.mpr (Ne.symm hne)
  rw [simulate_deals]
  cases hd : findDeal db.deals t (contactOf t p db).id with
  | some d =>
    obtain ⟨h3, hdeq⟩ := db3of_deals_found hd
    rw [h3, hdeq]
    have hp := findDeal_some_props hd
    apply filter_map_untouched
    intro x hx
    by_cases hid : x.id = d.id
    · right
      have hxd : x = d := List.inj_on_of_nodup_map hWFd hx hp.1 hid
      subst hxd
      refine ⟨?_, ?_⟩
      · show (x.tenant_id == t') = false
        rw [show x.tenant_id = t from hp.2.1]
        exact hb
      · rw [if_pos hid]
        show (x.tenant_id == t') = false
        rw [show x.tenant_id = t from hp.2.1]
        exact hb
    · left
      rw [if_neg hid]
  | none =>
    obtain ⟨h3, hdeq⟩ := db3of_deals_none hd
    rw [h3, hdeq]
    unfold stageUpdate
    rw [List.map_append, List.filter_append]
    have hnew : List.filter (fun d : Deal => d.tenant_id == t')
        (List.map (fun x : Deal =>
          if x.id = (⟨nextDealId db, t, (contactOf t p db).id, "new", "open"⟩ : Deal).id
          then { x with stage := newStageOf t p db } else x)
          [⟨nextDealId db, t, (contactOf t p db).id, "new", "open"⟩]) = [] := by
      simp [List.filter_cons, hb]
    rw [hnew, List.append_nil]
    apply filter_map_untouched
    intro x hx
    left
    rw [if_neg (ne_nextDealId hx)]

theorem messages_filter_simulate (t t' : Nat) (p : SimulateIn) (db : DB)
    (hne : t' ≠ t) :
    (simulate t p db).messages.filter (·.tenant_id == t') =
      db.messages.filter (·.tenant_id == t') := by
  have hb : (t == t') = false := beq_eq_false_iff_ne.mpr (Ne.symm hne)
  rw [simulate_messages_eq, List.filter_append]
  have h1 : (msgInOf t p db).tenant_id = t := rfl
  have h2 : (msgOutOf t p db).tenant_id = t := rfl
  have hnew : List.filter (fun m : Message => m.tenant_id == t')
      [msgInOf t p db, msgOutOf t p db] = [] := by
    simp [List.filter_cons, h1, h2, hb]
  rw [hnew, List.append_nil]

/-! ### Claim C6 -/

/-- C6: the contact resolved for tenant `t` always carries tenant_id `t` (and
the request's channel identity), so two distinct tenants handling the same
(channel, channel_user_id) resolve two distinct Contact rows; and a simulate
call for tenant `t` leaves every other tenant's rows (contacts, deals,
messages) exactly unchanged. -/
theorem C6_tenant_isolation (t t' : Nat) (p : SimulateIn) (db : DB) :
    ((contactOf t p db).tenant_id = t ∧ (contactOf t p db).channel = p.channel ∧
      (contactOf t p db).channel_user_id = p.channel_user_id) ∧
    (∀ t1 t2 : Nat, t1 ≠ t2 →
      contactOf t1 p db ≠ contactOf t2 p (simulate t1 p db)) ∧
    (WFids db → t' ≠ t → tenantView (simulate t p db) t' = tenantView db t') := by
  refine ⟨contactOf_fields t p db, ?_, ?_⟩
  · intro t1 t2 hne heq
    have h1 := (contactOf_fields t1 p db).1
    have h2 := (contactOf_fields t2 p (simulate t1 p db)).1
    rw [heq, h2] at h1
    exact hne h1.symm
  · intro hWF hne
    unfold tenantView
    rw [contacts_filter_simulate t t' p db hWF.1 hne,
      deals_filter_simulate t t' p db hWF.2 hne,
      messages_filter_simulate t t' p db hne]

/-- Witness for C6 at concrete inputs: tenants 1 and 2 with the same channel
identity resolve different contacts, and tenant 2's (empty) view is untouched
by tenant 1's simulate call. -/
theorem C6_tenant_isolation_witness :
    contactOf 1 ⟨"whatsapp", "92300", "hi", Option.none⟩ DB.empty ≠
      contactOf 2 ⟨"whatsapp", "92300", "hi", Option.none⟩
        (simulate 1 ⟨"whatsapp", "92300", "hi", Option.none⟩ DB.empty) ∧
    tenantView (simulate 1 ⟨"whatsapp", "92300", "hi", Option.none⟩ DB.empty) 2 =
      tenantView DB.empty 2 := by
  refine ⟨?_, ?_⟩
  · exact (C6_tenant_isolation 1 2 ⟨"whatsapp", "92300", "hi", Option.none⟩
      DB.empty).2.1 1 2 (by decide)
  · exact (C6_tenant_isolation 1 2 ⟨"whatsapp", "92300", "hi", Option.none⟩
      DB.empty).2.2 ⟨by simp [DB.empty], by simp [DB.empty]⟩ (by decide)

/-! ### Claim C7 -/

theorem pyIndex0_toOption (v : Py) : (pyIndex0 v).toOption = idx0Spec v := by
  cases v with
  | list xs => cases xs <;> rfl
  | str s =>
    cases hsd : s.data with
    | nil => simp [pyIndex0, idx0Spec, hsd, Except.toOption]
    | cons c t => simp [pyIndex0, idx0Spec, hsd, Except.toOption]
  | none => rfl
  | bool b => rfl
  | int n => rfl
  | dict kvs => rfl

theorem pyGet_toOption (v : Py) (k : String) : (pyGet v k).toOption = getSpec v k := by
  cases v <;> rfl

theorem toOption_bind (x : Except Unit Py) (f : Py → Except Unit Py) :
    (x >>= f).toOption = x.toOption >>= fun a => (f a).toOption := by
  cases x <;> rfl

theorem extract_routing_key_toOption (payload : List (String × Py)) :
    extract_routing_key payload = ((extract_routing_body payload).toOption).getD .none := by
  unfold extract_routing_key
  cases h : extract_routing_body payload <;> simp [h, Except.toOption]

theorem extract_routing_body_toOption (payload : List (String × Py)) :
    (extract_routing_body payload).toOption = routingKeySpec payload := by
  unfold extract_routing_body routingKeySpec
  by_cases hdet : detect_channel payload = "whatsapp" <;>
    simp [hdet, toOption_bind, pyIndex0_toOption, pyGet_toOption]

theorem pyOr_dict_empty (kvs : List (String × Py)) :
    pyOr (.dict kvs) (.dict []) = .dict kvs := by
  cases kvs <;> simp [pyOr, truthyPy]

theorem pyOr_list_cons (x : Py) (xs : List Py) (b : Py) :
    pyOr (.list (x :: xs)) b = .list (x :: xs) := by
  simp [pyOr, truthyPy]

theorem pyOr_none (b : Py) : pyOr .none b = b := by
  simp [pyOr, truthyPy]

theorem pyOr_list_nil (b : Py) : pyOr (.list []) b = b := by
  simp [pyOr, truthyPy]

/-- C7: `extract_routing_key` is total over arbitrary payload contents: it
equals the spec's exception-free Option-monadic routing-key function with
`None` for "no routing key"; on a structurally well-formed whatsapp payload it
returns the `phone_number_id` found at entry[0].changes[0].value.metadata; for
other channels it returns entry[0].id; and a structural mismatch (here:
missing "entry" key or empty entry array) yields `None` rather than an
exception. -/
theorem C7_extract_routing_key_total (payload : List (String × Py)) :
    extract_routing_key payload = (routingKeySpec payload).getD .none ∧
    (∀ es ekvs chs chkvs vkvs mkvs,
      detect_channel payload = "whatsapp" →
      dictLookup payload "entry" = some (.list (.dict ekvs :: es)) →
      dictLookup ekvs "changes" = some (.list (.dict chkvs :: chs)) →
      dictLookup chkvs "value" = some (.dict vkvs) →
      dictLookup vkvs "metadata" = some (.dict mkvs) →
      extract_routing_key payload = (dictLookup mkvs "phone_number_id").getD .none) ∧
    (∀ es ekvs,
      detect_channel payload ≠ "whatsapp" →
      dictLookup payload "entry" = some (.list (.dict ekvs :: es)) →
      extract_routing_key payload = (dictLookup ekvs "id").getD .none) ∧
    ((dictLookup payload "entry" = Option.none ∨
        dictLookup payload "entry" = some (.list [])) →
      extract_routing_key payload = .none) := by
  have hkey : extract_routing_key payload = (routingKeySpec payload).getD .none := by
    rw [extract_routing_key_toOption, extract_routing_body_toOption]
  refine ⟨hkey, ?_, ?_, ?_⟩
  · intro es ekvs chs chkvs vkvs mkvs hdet h1 h2 h3 h4
    rw [hkey]
    unfold routingKeySpec
    rw [if_pos hdet, h1]
    simp [idx0Spec, getSpec, h2, h3, h4, pyOr_list_cons, pyOr_dict_empty]
  · intro es ekvs hdet h1
    rw [hkey]
    unfold routingKeySpec
    rw [if_neg hdet, h1]
    simp [idx0Spec, getSpec, pyOr_list_cons]
  · intro h1
    rw [hkey]
    unfold routingKeySpec
    rcases h1 with h1 | h1 <;>
      by_cases hdet : detect_channel payload = "whatsapp" <;>
        simp [hdet, h1, idx0Spec, pyOr_none, pyOr_list_nil]

/-- Witness for C7 at concrete payloads: a well-formed whatsapp payload yields
its phone_number_id, a page payload yields its first entry id, and a payload
with an empty entry array yields no routing key. -/
theorem C7_extract_routing_key_total_witness :
    extract_routing_key
        [("object", .str "whatsapp_business_account"),
          ("entry", .list [.dict [("changes", .list [.dict [("value",
            .dict [("metadata", .dict [("phone_number_id", .str "106540")])])]])]])]
      = .str "106540" ∧
    extract_routing_key [("object", .str "page"), ("entry", .list [.dict [("id", .str "PAGE1")]])]
      = .str "PAGE1" ∧
    extract_routing_key [("object", .str "page"), ("entry", .list [])] = .none := by
  refine ⟨?_, ?_, ?_⟩
  · have h := (C7_extract_routing_key_total
      [("object", .str "whatsapp_business_account"),
        ("entry", .list [.dict [("changes", .list [.dict [("value",
          .dict [("metadata", .dict [("phone_number_id", .str "106540")])])]])]])]).2.1
      [] [("changes", .list [.dict [("value",
        .dict [("metadata", .dict [("phone_number_id", .str "106540")])])]])]
      [] [("value", .dict [("metadata", .dict [("phone_number_id", .str "106540")])])]
      [("metadata", .dict [("phone_number_id", .str "106540")])]
      [("phone_number_id", .str "106540")]
      (by decide) rfl rfl rfl rfl
    rw [h]
    rfl
  · have h := (C7_extract_routing_key_total
      [("object", .str "page"), ("entry", .list [.dict [("id", .str "PAGE1")]])]).2.2.1
      [] [("id", .str "PAGE1")] (by decide) rfl
    rw [h]
    rfl
  · exact (C7_extract_routing_key_total
      [("object", .str "page"), ("entry", .list [])]).2.2.2 (Or.inr rfl)

end CRM

